import Mathlib

/-!
Verification of the balance-and-transaction core of the Rifas Cuba bot
(source file: src/bit_rifas_cuba.py).

Modelling conventions.
Python float arithmetic on monetary values is modelled by exact rational
arithmetic over ℚ; the Python call round(x, 2) is modelled by round2 below
(round to the nearest multiple of 1/100).  All monetary constants appearing
in the claims are exactly representable and no rounding tie arises at any
value used in a theorem, so the model and CPython agree on every evaluation
performed here.  Python str.lower / str.strip / str.replace and the builtin
float() are modelled on ASCII character lists; float() is modelled on the
plain decimal grammar sign? (digits (. digits?)? | . digits), which covers
every literal the handlers can receive in the flows under study.
The Supabase tables (users, transactions, bets) are modelled by the State
structure; messages sent to a transaction's owner by the two admin review
handlers are logged in State.notes so that notification counts can be
stated.
-/

namespace Rifas

/-! ## Definitions: the shallow embedding of src/bit_rifas_cuba.py -/

def round2 (x : ℚ) : ℚ := ((round (x * 100) : ℤ) : ℚ) / 100

def Dec2 (x : ℚ) : Prop := ∃ n : ℤ, x = (n : ℚ) / 100

def pyLower (l : List Char) : List Char := l.map Char.toLower

def replaceCommaDot (l : List Char) : List Char :=
  l.map (fun c => if c = ',' then '.' else c)

def trimChars (l : List Char) : List Char :=
  ((l.dropWhile Char.isWhitespace).reverse.dropWhile Char.isWhitespace).reverse

def hasSub : List Char → List Char → Bool
  | [], pat => pat.isEmpty
  | c :: cs, pat => pat.isPrefixOf (c :: cs) || hasSub cs pat

def takeBefore : List Char → List Char → List Char
  | [], _ => []
  | c :: cs, pat => if pat.isPrefixOf (c :: cs) then [] else c :: takeBefore cs pat

def digitsToNat (l : List Char) : Nat :=
  l.foldl (fun a c => 10 * a + (c.toNat - 48)) 0

def pyIsDigit (l : List Char) : Bool := !l.isEmpty && l.all Char.isDigit

structure DecParts where
  neg : Bool
  int : List Char
  frac : List Char
deriving DecidableEq

def pyFloatParts (l : List Char) : Option DecParts :=
  let sgn : Bool × List Char :=
    match l with
    | c :: r => if c = '-' then (true, r) else if c = '+' then (false, r) else (false, c :: r)
    | [] => (false, [])
  let ds := sgn.2.takeWhile Char.isDigit
  let r1 := sgn.2.dropWhile Char.isDigit
  match r1 with
  | [] => if ds.isEmpty then none else some ⟨sgn.1, ds, []⟩
  | '.' :: r2 =>
    let fs := r2.takeWhile Char.isDigit
    let r3 := r2.dropWhile Char.isDigit
    if r3.isEmpty && !(ds.isEmpty && fs.isEmpty) then some ⟨sgn.1, ds, fs⟩
    else none
  | _ => none

def partsToRat (p : DecParts) : ℚ :=
  (if p.neg then (-1 : ℚ) else 1) *
    ((digitsToNat p.int : ℚ) + (digitsToNat p.frac : ℚ) / 10 ^ p.frac.length)

def pyFloat (l : List Char) : Option ℚ := (pyFloatParts l).map partsToRat

def parse_amount (text : String) : ℚ × ℚ :=
  let t := trimChars (replaceCommaDot (pyLower text.data))
  if hasSub t ['u', 's', 'd'] then
    match pyFloat (trimChars (takeBefore t ['u', 's', 'd'])) with
    | some n => (n, 0)
    | none => (0, 0)
  else if hasSub t ['c', 'u', 'p'] then
    match pyFloat (trimChars (takeBefore t ['c', 'u', 'p'])) with
    | some n => (0, n)
    | none => (0, 0)
  else
    match pyFloat t with
    | some n => (n, 0)
    | none => (0, 0)

inductive Cur where
  | usd
  | cup
deriving DecidableEq

def matchCur (l : List Char) : Option (Cur × List Char) :=
  match l.dropWhile Char.isWhitespace with
  | 'u' :: 's' :: 'd' :: r => some (Cur.usd, r)
  | 'c' :: 'u' :: 'p' :: r => some (Cur.cup, r)
  | _ => none

def matchAt (l : List Char) : Option ((List Char × Cur) × List Char) :=
  let ds := l.takeWhile Char.isDigit
  if ds.isEmpty then none
  else
    let r1 := l.dropWhile Char.isDigit
    let withFrac : Option ((List Char × Cur) × List Char) :=
      match r1 with
      | '.' :: r2 =>
        let fs := r2.takeWhile Char.isDigit
        if fs.isEmpty then none
        else
          match matchCur (r2.dropWhile Char.isDigit) with
          | some (cur, rest) => some ((ds ++ '.' :: fs, cur), rest)
          | none => none
      | _ => none
    match withFrac with
    | some x => some x
    | none =>
      match matchCur r1 with
      | some (cur, rest) => some ((ds, cur), rest)
      | none => none

def findAllAux : Nat → List Char → List (List Char × Cur)
  | 0, _ => []
  | _ + 1, [] => []
  | fuel + 1, c :: cs =>
    match matchAt (c :: cs) with
    | some (p, rest) => p :: findAllAux fuel rest
    | none => findAllAux fuel cs

def findAll (l : List Char) : List (List Char × Cur) := findAllAux l.length l

def lastMatch (raw : String) : Option (List Char × Cur) :=
  (findAll (pyLower raw.data)).getLast?

def groupVal (v : List Char) : ℚ := (pyFloat v).getD 0

def selectedCost (raw bt : String) (prices : String → ℚ × ℚ) : ℚ × ℚ :=
  match lastMatch raw with
  | some (v, Cur.usd) => (groupVal v, 0)
  | some (v, Cur.cup) => (0, groupVal v)
  | none => ((prices bt).2, (prices bt).1)

def parse_bet_and_cost (raw bt : String) (prices : String → ℚ × ℚ) :
    Bool × ℚ × ℚ :=
  let uc := selectedCost raw bt prices
  if uc.1 = 0 ∧ uc.2 = 0 then (false, 0, 0) else (true, uc.1, uc.2)

def defaultPlayPrices : String → ℚ × ℚ := fun _ => (70, 1 / 5)

structure User where
  usd : ℚ
  cup : ℚ
  bonus_usd : ℚ
  ref : Option Nat
deriving DecidableEq

def defaultUser : User := ⟨0, 0, 0, none⟩

inductive TxType where
  | deposit
  | withdraw
  | transfer
deriving DecidableEq

inductive TxStatus where
  | pending
  | approved
  | rejected
deriving DecidableEq

structure Tx where
  user_id : Nat
  ttype : TxType
  amount_usd : ℚ
  amount_cup : ℚ
  method_id : Option Nat
  target_user : Option Nat
  status : TxStatus
deriving DecidableEq

structure Bet where
  user_id : Nat
  lottery : String
  bet_type : String
  raw : String
  cost_usd : ℚ
  cost_cup : ℚ
deriving DecidableEq

structure State where
  users : Nat → Option User
  txs : List Tx
  bets : List Bet
  notes : List Nat

def initState : State := ⟨fun _ => none, [], [], []⟩

def get_user (s : State) (uid : Nat) : User × State :=
  match s.users uid with
  | some u => (u, s)
  | none =>
    (defaultUser,
      { s with users := fun k => if k = uid then some defaultUser else s.users k })

def setUserBalances (users : Nat → Option User) (uid : Nat) (nu nc nb : ℚ) :
    Nat → Option User :=
  fun k => if k = uid then (users uid).map (fun old => ⟨nu, nc, nb, old.ref⟩) else users k

def update_user_balance (s : State) (uid : Nat) (du dc db : ℚ) : State :=
  let gu := get_user s uid
  { gu.2 with
    users := setUserBalances gu.2.users uid (round2 (gu.1.usd + du))
      (round2 (gu.1.cup + dc)) (round2 (gu.1.bonus_usd + db)) }

def create_transaction (s : State) (uid : Nat) (ttype : TxType)
    (amount_usd amount_cup : ℚ) (method_id target_user : Option Nat) :
    Nat × State :=
  (s.txs.length,
    { s with txs := s.txs ++
        [⟨uid, ttype, round2 amount_usd, round2 amount_cup, method_id,
          target_user, TxStatus.pending⟩] })

def update_transaction_status (s : State) (tx_id : Nat) (st : TxStatus) : State :=
  match s.txs[tx_id]? with
  | none => s
  | some tx => { s with txs := s.txs.set tx_id { tx with status := st } }

def get_transaction (s : State) (tx_id : Nat) : Option Tx := s.txs[tx_id]?

def add_bet (s : State) (uid : Nat) (lottery bet_type raw : String)
    (cost_usd cost_cup : ℚ) : State :=
  { s with bets := s.bets ++ [⟨uid, lottery, bet_type, raw, cost_usd, cost_cup⟩] }

def note (s : State) (uid : Nat) : State := { s with notes := s.notes ++ [uid] }

def cup_to_usd (rate cup_amount : ℚ) : ℚ :=
  if rate = 0 then 0 else round2 (cup_amount / rate)

structure Config where
  adminId : Nat
  rate : ℚ
  bonusCup : ℚ
  prices : String → ℚ × ℚ

def handle_bet_after (s : State) (uid : Nat) (user : User)
    (raw bet_type lottery : String) (cost_usd cost_cup : ℚ) : State :=
  let s1 := add_bet s uid lottery bet_type raw cost_usd cost_cup
  match user.ref with
  | none => s1
  | some r =>
    let commission := if 0 < cost_usd then round2 (cost_usd * (5 / 100)) else 0
    if 0 < commission then update_user_balance s1 r commission 0 0 else s1

def handle_bet (cfg : Config) (s : State) (uid : Nat)
    (raw bet_type lottery : String) : State :=
  let pr := parse_bet_and_cost raw bet_type cfg.prices
  if pr.1 = false then s
  else
    let cost_usd := pr.2.1
    let cost_cup := pr.2.2
    let gu := get_user s uid
    if 0 < cost_usd then
      if gu.1.usd + gu.1.bonus_usd < cost_usd then gu.2
      else
        let use_bonus := min gu.1.bonus_usd cost_usd
        handle_bet_after
          (update_user_balance gu.2 uid (-(cost_usd - use_bonus)) 0 (-use_bonus))
          uid gu.1 raw bet_type lottery cost_usd cost_cup
    else
      if gu.1.cup < cost_cup then gu.2
      else
        handle_bet_after (update_user_balance gu.2 uid 0 (-cost_cup) 0)
          uid gu.1 raw bet_type lottery cost_usd cost_cup

def handle_deposit_photo (s : State) (uid : Nat) (caption : String)
    (method_id : Nat) : State :=
  let uc := parse_amount caption
  if uc.1 = 0 ∧ uc.2 = 0 then s
  else (create_transaction s uid TxType.deposit uc.1 uc.2 (some method_id) none).2

def handle_deposit_review (cfg : Config) (s : State) (caller : Nat)
    (approve : Bool) (tx_id : Nat) : State :=
  if caller ≠ cfg.adminId then s
  else
    match get_transaction s tx_id with
    | none => s
    | some tx =>
      if approve then
        let bonus := if 0 < tx.amount_usd ∨ 0 < tx.amount_cup
          then cup_to_usd cfg.rate cfg.bonusCup else 0
        let s1 := update_user_balance s tx.user_id tx.amount_usd tx.amount_cup bonus
        update_transaction_status (note s1 tx.user_id) tx_id TxStatus.approved
      else
        update_transaction_status (note s tx.user_id) tx_id TxStatus.rejected

def handle_withdraw_details (s : State) (uid : Nat) (text : String)
    (method_id : Nat) : State :=
  if hasSub (trimChars text.data) ['|'] = false then s
  else
    let gu := get_user s uid
    if gu.1.usd < 1 then gu.2
    else
      (create_transaction (update_user_balance gu.2 uid (-gu.1.usd) 0 0)
        uid TxType.withdraw gu.1.usd 0 (some method_id) none).2

def handle_withdraw_review (cfg : Config) (s : State) (caller : Nat)
    (approve : Bool) (tx_id : Nat) : State :=
  if caller ≠ cfg.adminId then s
  else
    match get_transaction s tx_id with
    | none => s
    | some tx =>
      if approve then
        update_transaction_status (note s tx.user_id) tx_id TxStatus.approved
      else
        let s1 := update_user_balance s tx.user_id tx.amount_usd 0 0
        update_transaction_status (note s1 tx.user_id) tx_id TxStatus.rejected

def handle_transfer_target (uid : Nat) (text : String) : Option Nat :=
  let t := trimChars text.data
  if pyIsDigit t = false then none
  else
    let target := digitsToNat t
    if target = uid then none else some target

def handle_transfer_amount (s : State) (uid target : Nat) (text : String) : State :=
  match pyFloat (replaceCommaDot (trimChars text.data)) with
  | none => s
  | some amount =>
    if amount ≤ 0 then s
    else
      let gu := get_user s uid
      if gu.1.usd < amount then gu.2
      else
        (create_transaction
          (update_user_balance (update_user_balance gu.2 uid (-amount) 0 0)
            target amount 0 0)
          uid TxType.transfer amount 0 none (some target)).2

def transferOp (s : State) (uid : Nat) (targetText amountText : String) : State :=
  match handle_transfer_target uid targetText with
  | none => s
  | some target => handle_transfer_amount s uid target amountText

inductive Op where
  | bet (uid : Nat) (raw bet_type lottery : String)
  | depositPhoto (uid : Nat) (caption : String) (method_id : Nat)
  | depositReview (caller : Nat) (approve : Bool) (tx_id : Nat)
  | withdrawDetails (uid : Nat) (text : String) (method_id : Nat)
  | withdrawReview (caller : Nat) (approve : Bool) (tx_id : Nat)
  | transfer (uid : Nat) (targetText amountText : String)

def step (cfg : Config) (s : State) : Op → State
  | Op.bet uid raw bt lot => handle_bet cfg s uid raw bt lot
  | Op.depositPhoto uid caption m => handle_deposit_photo s uid caption m
  | Op.depositReview caller a t => handle_deposit_review cfg s caller a t
  | Op.withdrawDetails uid text m => handle_withdraw_details s uid text m
  | Op.withdrawReview caller a t => handle_withdraw_review cfg s caller a t
  | Op.transfer uid t a => transferOp s uid t a

def runOps (cfg : Config) (s : State) : List Op → State
  | [] => s
  | op :: ops => runOps cfg (step cfg s op) ops

def applyDeltas (u : User) (du dc db : ℚ) : User :=
  ⟨round2 (u.usd + du), round2 (u.cup + dc), round2 (u.bonus_usd + db), u.ref⟩

def BalOk (u : User) : Prop := 0 ≤ u.usd ∧ 0 ≤ u.cup ∧ 0 ≤ u.bonus_usd

def TxOk (t : Tx) : Prop := 0 ≤ t.amount_usd ∧ 0 ≤ t.amount_cup

def Inv (s : State) : Prop :=
  (∀ uid u, s.users uid = some u → BalOk u) ∧ ∀ t ∈ s.txs, TxOk t

def CfgOk (cfg : Config) : Prop :=
  0 ≤ cfg.rate ∧ 0 ≤ cfg.bonusCup ∧
    ∀ bt, 0 ≤ (cfg.prices bt).1 ∧ 0 ≤ (cfg.prices bt).2

def OpOk : Op → Prop
  | Op.depositPhoto _ caption _ =>
    0 ≤ (parse_amount caption).1 ∧ 0 ≤ (parse_amount caption).2
  | _ => True

def cfgW : Config := ⟨9, 110, 70, fun _ => (70, 1 / 5)⟩

def opsW : List Op := [Op.depositPhoto 1 "10 usd" 0, Op.depositReview 9 true 0]

def userW : User := ⟨10, 0, 16 / 25, none⟩

def s2cex : State :=
  ⟨fun k => if k = 1 then some ⟨2, 0, 0, none⟩ else none, [], [], []⟩

def s2wit : State :=
  ⟨fun k => if k = 7 then some ⟨3, 0, 1 / 2, none⟩ else none, [], [], []⟩

def s3wit : State :=
  ⟨fun k => if k = 4 then some ⟨5, 2, 3, none⟩ else none, [], [], []⟩

def balance_read (s : State) (uid : Nat) : User × State := get_user s uid

def balance_write (s : State) (uid : Nat) (u : User) (du dc db : ℚ) : State :=
  { s with
    users := setUserBalances s.users uid (round2 (u.usd + du))
      (round2 (u.cup + dc)) (round2 (u.bonus_usd + db)) }

def s5dat : State :=
  ⟨fun k => if k = 1 then some ⟨10, 0, 0, none⟩ else none, [], [], []⟩

def tx9 : Tx := ⟨1, TxType.deposit, 5, 0, some 0, none, TxStatus.pending⟩

def s9wit : State :=
  ⟨fun k => if k = 1 then some ⟨2, 3, 1 / 2, none⟩ else none, [tx9], [], []⟩

def s6dat : State :=
  ⟨fun k => if k = 1 then some ⟨10, 0, 0, none⟩ else none, [], [], []⟩

def s7dat : State :=
  ⟨fun k => if k = 1 then some ⟨1, 0, 0, some 2⟩
    else if k = 2 then some ⟨0, 0, 0, none⟩ else none, [], [], []⟩

def s7wit : State :=
  ⟨fun k => if k = 1 then some ⟨5, 200, 0, some 2⟩
    else if k = 2 then some ⟨1, 0, 0, none⟩ else none, [], [], []⟩

/-! ## Theorems -/

theorem Dec2.zero : Dec2 0 := ⟨0, by norm_num⟩

theorem Dec2.add {a b : ℚ} (ha : Dec2 a) (hb : Dec2 b) : Dec2 (a + b) := by
  obtain ⟨n, rfl⟩ := ha; obtain ⟨m, rfl⟩ := hb
  exact ⟨n + m, by push_cast; ring⟩

theorem Dec2.neg {a : ℚ} (ha : Dec2 a) : Dec2 (-a) := by
  obtain ⟨n, rfl⟩ := ha
  exact ⟨-n, by push_cast; ring⟩

theorem Dec2.sub {a b : ℚ} (ha : Dec2 a) (hb : Dec2 b) : Dec2 (a - b) := by
  simpa [sub_eq_add_neg] using ha.add hb.neg

theorem Dec2.min {a b : ℚ} (ha : Dec2 a) (hb : Dec2 b) : Dec2 (min a b) := by
  rcases le_total a b with h | h
  · rwa [min_eq_left h]
  · rwa [min_eq_right h]

theorem Dec2.max {a b : ℚ} (ha : Dec2 a) (hb : Dec2 b) : Dec2 (max a b) := by
  rcases le_total a b with h | h
  · rwa [max_eq_right h]
  · rwa [max_eq_left h]

theorem Dec2.round2 (x : ℚ) : Dec2 (round2 x) := ⟨round (x * 100), rfl⟩

theorem round2_eq_self {x : ℚ} (hx : Dec2 x) : round2 x = x := by
  obtain ⟨n, rfl⟩ := hx
  have h : (n : ℚ) / 100 * 100 = (n : ℚ) := by field_simp
  rw [round2, h, round_intCast]

theorem round2_nonneg {x : ℚ} (hx : 0 ≤ x) : 0 ≤ round2 x := by
  have h : (0 : ℤ) ≤ round (x * 100) := by
    rw [round_eq]
    have h2 : (0 : ℚ) ≤ x * 100 + 1 / 2 := by positivity
    exact Int.floor_nonneg.mpr h2
  have h3 : (0 : ℚ) ≤ ((round (x * 100) : ℤ) : ℚ) := by exact_mod_cast h
  rw [round2]
  positivity

theorem round2_zero : round2 0 = 0 := round2_eq_self Dec2.zero

theorem get_user_of_some {s : State} {uid : Nat} {u : User}
    (h : s.users uid = some u) : get_user s uid = (u, s) := by
  simp [get_user, h]

theorem get_user_users (s : State) (uid k : Nat) :
    ((get_user s uid).2).users k =
      if k = uid then some (get_user s uid).1 else s.users k := by
  rcases h : s.users uid with _ | u
  · by_cases hk : k = uid <;> simp [get_user, h, hk]
  · by_cases hk : k = uid <;> simp [get_user, h, hk]

theorem get_user_txs (s : State) (uid : Nat) : ((get_user s uid).2).txs = s.txs := by
  rcases h : s.users uid with _ | u <;> simp [get_user, h]

theorem get_user_bets (s : State) (uid : Nat) : ((get_user s uid).2).bets = s.bets := by
  rcases h : s.users uid with _ | u <;> simp [get_user, h]

theorem get_user_notes (s : State) (uid : Nat) : ((get_user s uid).2).notes = s.notes := by
  rcases h : s.users uid with _ | u <;> simp [get_user, h]

theorem update_user_balance_users (s : State) (uid : Nat) (du dc db : ℚ) (k : Nat) :
    (update_user_balance s uid du dc db).users k =
      if k = uid then some (applyDeltas (get_user s uid).1 du dc db)
      else s.users k := by
  by_cases hk : k = uid
  · subst hk
    simp [update_user_balance, setUserBalances, applyDeltas, get_user_users]
  · simp [update_user_balance, setUserBalances, hk, get_user_users]

theorem update_user_balance_txs (s : State) (uid : Nat) (du dc db : ℚ) :
    (update_user_balance s uid du dc db).txs = s.txs := by
  simp [update_user_balance, get_user_txs]

theorem update_user_balance_bets (s : State) (uid : Nat) (du dc db : ℚ) :
    (update_user_balance s uid du dc db).bets = s.bets := by
  simp [update_user_balance, get_user_bets]

theorem update_user_balance_notes (s : State) (uid : Nat) (du dc db : ℚ) :
    (update_user_balance s uid du dc db).notes = s.notes := by
  simp [update_user_balance, get_user_notes]

theorem update_user_balance_of_some {s : State} {uid : Nat} {u : User}
    (h : s.users uid = some u) (du dc db : ℚ) (k : Nat) :
    (update_user_balance s uid du dc db).users k =
      if k = uid then some (applyDeltas u du dc db) else s.users k := by
  rw [update_user_balance_users, get_user_of_some h]

theorem create_transaction_users (s : State) (uid : Nat) (t : TxType)
    (au ac : ℚ) (m tu : Option Nat) :
    ((create_transaction s uid t au ac m tu).2).users = s.users := rfl

theorem create_transaction_txs (s : State) (uid : Nat) (t : TxType)
    (au ac : ℚ) (m tu : Option Nat) :
    ((create_transaction s uid t au ac m tu).2).txs =
      s.txs ++ [⟨uid, t, round2 au, round2 ac, m, tu, TxStatus.pending⟩] := rfl

theorem update_transaction_status_users (s : State) (i : Nat) (st : TxStatus) :
    (update_transaction_status s i st).users = s.users := by
  rcases h : s.txs[i]? with _ | tx <;> simp [update_transaction_status, h]

theorem add_bet_users (s : State) (uid : Nat) (a b c : String) (cu cc : ℚ) :
    (add_bet s uid a b c cu cc).users = s.users := rfl

theorem add_bet_txs (s : State) (uid : Nat) (a b c : String) (cu cc : ℚ) :
    (add_bet s uid a b c cu cc).txs = s.txs := rfl

theorem note_users (s : State) (uid : Nat) : (note s uid).users = s.users := rfl

theorem note_txs (s : State) (uid : Nat) : (note s uid).txs = s.txs := rfl

theorem balOk_default : BalOk defaultUser := by
  refine ⟨le_refl 0, le_refl 0, le_refl 0⟩

theorem get_user_balOk {s : State} (h : Inv s) (uid : Nat) :
    BalOk (get_user s uid).1 := by
  rcases hu : s.users uid with _ | u
  · simp [get_user, hu]; exact balOk_default
  · simp [get_user, hu]; exact h.1 uid u hu

theorem inv_get_user {s : State} (h : Inv s) (uid : Nat) :
    Inv (get_user s uid).2 := by
  constructor
  · intro k u hk
    rw [get_user_users] at hk
    by_cases hke : k = uid
    · simp [hke] at hk
      rw [← hk]
      exact get_user_balOk h uid
    · simp [hke] at hk
      exact h.1 k u hk
  · rw [get_user_txs]
    exact h.2

theorem inv_update_user_balance {s : State} {uid : Nat} {du dc db : ℚ}
    (h : Inv s)
    (h1 : 0 ≤ (get_user s uid).1.usd + du)
    (h2 : 0 ≤ (get_user s uid).1.cup + dc)
    (h3 : 0 ≤ (get_user s uid).1.bonus_usd + db) :
    Inv (update_user_balance s uid du dc db) := by
  constructor
  · intro k u hk
    rw [update_user_balance_users] at hk
    by_cases hke : k = uid
    · simp [hke] at hk
      rw [← hk]
      exact ⟨round2_nonneg h1, round2_nonneg h2, round2_nonneg h3⟩
    · simp [hke] at hk
      exact h.1 k u hk
  · rw [update_user_balance_txs]
    exact h.2

theorem inv_update_nonneg {s : State} {uid : Nat} {du dc db : ℚ}
    (h : Inv s) (h1 : 0 ≤ du) (h2 : 0 ≤ dc) (h3 : 0 ≤ db) :
    Inv (update_user_balance s uid du dc db) := by
  obtain ⟨b1, b2, b3⟩ := get_user_balOk h uid
  exact inv_update_user_balance h (by linarith) (by linarith) (by linarith)

theorem inv_create_transaction {s : State} {uid : Nat} {t : TxType}
    {au ac : ℚ} {m tu : Option Nat}
    (h : Inv s) (h1 : 0 ≤ au) (h2 : 0 ≤ ac) :
    Inv (create_transaction s uid t au ac m tu).2 := by
  constructor
  · intro k u hk
    exact h.1 k u hk
  · intro tx htx
    rw [create_transaction_txs] at htx
    rcases List.mem_append.mp htx with hm | hm
    · exact h.2 tx hm
    · simp at hm
      rw [hm]
      exact ⟨round2_nonneg h1, round2_nonneg h2⟩

theorem inv_update_transaction_status {s : State} {i : Nat} {st : TxStatus}
    (h : Inv s) : Inv (update_transaction_status s i st) := by
  rcases hi : s.txs[i]? with _ | tx
  · simpa [update_transaction_status, hi] using h
  · constructor
    · intro k u hk
      rw [update_transaction_status_users] at hk
      exact h.1 k u hk
    · intro t ht
      simp [update_transaction_status, hi] at ht
      rcases List.mem_or_eq_of_mem_set ht with hm | hm
      · exact h.2 t hm
      · have htx : TxOk tx := h.2 tx (List.getElem?_mem hi)
        rw [hm]
        exact htx

theorem inv_add_bet {s : State} {uid : Nat} {a b c : String} {cu cc : ℚ}
    (h : Inv s) : Inv (add_bet s uid a b c cu cc) := by
  exact ⟨h.1, h.2⟩

theorem inv_note {s : State} {uid : Nat} (h : Inv s) : Inv (note s uid) := by
  exact ⟨h.1, h.2⟩

theorem cup_to_usd_nonneg {rate c : ℚ} (hr : 0 ≤ rate) (hc : 0 ≤ c) :
    0 ≤ cup_to_usd rate c := by
  rw [cup_to_usd]
  by_cases h0 : rate = 0
  · simp [h0]
  · have hpos : 0 < rate := lt_of_le_of_ne hr (Ne.symm h0)
    simp [h0]
    exact round2_nonneg (by positivity)

theorem partsToRat_nonneg {p : DecParts} (h : p.neg = false) : 0 ≤ partsToRat p := by
  simp only [partsToRat, h, Bool.false_eq_true, if_false, one_mul]
  positivity

theorem takeWhile_digit_head {l : List Char}
    (h : (l.takeWhile Char.isDigit).isEmpty = false) :
    ∃ d t, l.takeWhile Char.isDigit = d :: t ∧ d.isDigit = true := by
  cases l with
  | nil => simp at h
  | cons c cs =>
    rcases hc : c.isDigit with _ | _
    · rw [List.takeWhile_cons, hc] at h
      simp at h
    · rw [List.takeWhile_cons, hc]
      exact ⟨c, cs.takeWhile Char.isDigit, rfl, hc⟩

theorem pyFloatParts_digit_head {d : Char} {t : List Char} {p : DecParts}
    (hd : d.isDigit = true) (h : pyFloatParts (d :: t) = some p) :
    p.neg = false := by
  have h1 : d ≠ '-' := by
    intro he; rw [he] at hd; exact absurd hd (by decide)
  have h2 : d ≠ '+' := by
    intro he; rw [he] at hd; exact absurd hd (by decide)
  rw [pyFloatParts] at h
  simp only [h1, h2, if_false] at h
  split at h
  · split at h
    · simp at h
    · simp at h
      rw [← h]
  · split at h
    · simp at h
      rw [← h]
    · simp at h
  · simp at h

theorem matchAt_group_head {l v : List Char} {cur : Cur} {rest : List Char}
    (h : matchAt l = some ((v, cur), rest)) :
    ∃ d t, v = d :: t ∧ d.isDigit = true := by
  simp only [matchAt] at h
  split at h
  · simp at h
  · rename_i hne
    obtain ⟨d, t, hdt, hd⟩ := takeWhile_digit_head (by simpa using hne)
    split at h
    · rename_i x hx
      split at hx
      · split at hx
        · simp at hx
        · split at hx
          · rw [Option.some.injEq] at hx
            rw [← hx, Option.some.injEq, Prod.mk.injEq] at h
            have hv := h.1
            rw [Prod.mk.injEq] at hv
            have hveq := hv.1
            rw [hdt, List.cons_append] at hveq
            exact ⟨d, _, hveq.symm, hd⟩
          · simp at hx
      · simp at hx
    · split at h
      · rw [Option.some.injEq, Prod.mk.injEq] at h
        have hv := h.1
        rw [Prod.mk.injEq] at hv
        have hveq := hv.1
        rw [hdt] at hveq
        exact ⟨d, t, hveq.symm, hd⟩
      · simp at h

theorem findAllAux_digit_head :
    ∀ (fuel : Nat) (l v : List Char) (cur : Cur),
      (v, cur) ∈ findAllAux fuel l → ∃ d t, v = d :: t ∧ d.isDigit = true := by
  intro fuel
  induction fuel with
  | zero =>
    intro l v cur h
    rw [show findAllAux 0 l = [] from rfl] at h
    simp at h
  | succ n ih =>
    intro l v cur h
    cases l with
    | nil =>
      rw [show findAllAux (n + 1) [] = [] from rfl] at h
      simp at h
    | cons c cs =>
      rw [findAllAux] at h
      rcases hm : matchAt (c :: cs) with _ | ⟨⟨w, wcur⟩, rest⟩
      · rw [hm] at h
        exact ih cs v cur h
      · rw [hm] at h
        rcases List.mem_cons.mp h with he | he
        · injection he with h1 h2
          subst h1
          subst h2
          exact matchAt_group_head hm
        · exact ih rest v cur he

theorem groupVal_nonneg {v : List Char}
    (h : ∃ d t, v = d :: t ∧ d.isDigit = true) : 0 ≤ groupVal v := by
  obtain ⟨d, t, rfl, hd⟩ := h
  rw [groupVal, pyFloat]
  rcases hp : pyFloatParts (d :: t) with _ | p
  · exact le_refl 0
  · exact partsToRat_nonneg (pyFloatParts_digit_head hd hp)

theorem selectedCost_nonneg (raw bt : String) {P : String → ℚ × ℚ}
    (hP : ∀ b, 0 ≤ (P b).1 ∧ 0 ≤ (P b).2) :
    0 ≤ (selectedCost raw bt P).1 ∧ 0 ≤ (selectedCost raw bt P).2 := by
  rw [selectedCost, lastMatch]
  rcases hL : (findAll (pyLower raw.data)).getLast? with _ | ⟨v, cur⟩
  · exact ⟨(hP bt).2, (hP bt).1⟩
  · have hmem : (v, cur) ∈ findAll (pyLower raw.data) := List.mem_of_mem_getLast? hL
    have hv : 0 ≤ groupVal v :=
      groupVal_nonneg (findAllAux_digit_head _ _ v cur hmem)
    cases cur
    · exact ⟨hv, le_refl 0⟩
    · exact ⟨le_refl 0, hv⟩

theorem parse_cost_nonneg (raw bt : String) {P : String → ℚ × ℚ}
    (hP : ∀ b, 0 ≤ (P b).1 ∧ 0 ≤ (P b).2) :
    0 ≤ (parse_bet_and_cost raw bt P).2.1 ∧ 0 ≤ (parse_bet_and_cost raw bt P).2.2 := by
  rw [parse_bet_and_cost]
  have hs := selectedCost_nonneg raw bt hP
  split
  · exact ⟨le_refl 0, le_refl 0⟩
  · exact hs

theorem get_user_snd_users_self (s : State) (uid : Nat) :
    ((get_user s uid).2).users uid = some (get_user s uid).1 := by
  rw [get_user_users]
  simp

theorem get_user_idem (s : State) (uid : Nat) :
    get_user (get_user s uid).2 uid = ((get_user s uid).1, (get_user s uid).2) :=
  get_user_of_some (get_user_snd_users_self s uid)

theorem inv_handle_bet_after {s : State} {uid : Nat} {user : User}
    {raw bt lot : String} {cu cc : ℚ} (h : Inv s) :
    Inv (handle_bet_after s uid user raw bt lot cu cc) := by
  simp only [handle_bet_after]
  cases hr : user.ref with
  | none => exact inv_add_bet h
  | some r =>
    simp only []
    split
    · split
      · rename_i hcom
        exact inv_update_nonneg (inv_add_bet h) (le_of_lt hcom) (le_refl 0) (le_refl 0)
      · exact inv_add_bet h
    · split
      · rename_i hcom
        exact absurd hcom (lt_irrefl 0)
      · exact inv_add_bet h

theorem get_user_idem_fst (s : State) (uid : Nat) :
    (get_user (get_user s uid).2 uid).1 = (get_user s uid).1 := by
  rw [get_user_idem]

theorem inv_handle_bet {cfg : Config} {s : State} {uid : Nat}
    {raw bt lot : String} (hc : CfgOk cfg) (h : Inv s) :
    Inv (handle_bet cfg s uid raw bt lot) := by
  obtain ⟨hcu, hcc⟩ := parse_cost_nonneg raw bt hc.2.2
  obtain ⟨hU, hC, hB⟩ := get_user_balOk h uid
  simp only [handle_bet]
  split
  · exact h
  · split
    · split
      · exact inv_get_user h uid
      · rename_i hpos hfunds
        apply inv_handle_bet_after
        apply inv_update_user_balance (inv_get_user h uid) <;>
          rw [get_user_idem_fst]
        · rcases le_total (get_user s uid).1.bonus_usd
              (parse_bet_and_cost raw bt cfg.prices).2.1 with hbc | hbc
          · rw [min_eq_left hbc]
            push_neg at hfunds
            linarith
          · rw [min_eq_right hbc]
            linarith
        · linarith
        · have hmin := min_le_left (get_user s uid).1.bonus_usd
            (parse_bet_and_cost raw bt cfg.prices).2.1
          linarith
    · split
      · exact inv_get_user h uid
      · rename_i hpos hfunds
        apply inv_handle_bet_after
        apply inv_update_user_balance (inv_get_user h uid) <;>
          rw [get_user_idem_fst]
        · linarith
        · push_neg at hfunds
          linarith
        · linarith

theorem inv_handle_deposit_photo {s : State} {uid : Nat} {caption : String}
    {m : Nat} (h : Inv s)
    (hok : 0 ≤ (parse_amount caption).1 ∧ 0 ≤ (parse_amount caption).2) :
    Inv (handle_deposit_photo s uid caption m) := by
  rw [handle_deposit_photo]
  split
  · exact h
  · exact inv_create_transaction h hok.1 hok.2

theorem inv_handle_deposit_review {cfg : Config} {s : State} {caller : Nat}
    {a : Bool} {tx_id : Nat} (hc : CfgOk cfg) (h : Inv s) :
    Inv (handle_deposit_review cfg s caller a tx_id) := by
  simp only [handle_deposit_review]
  split
  · exact h
  · rcases htx : get_transaction s tx_id with _ | tx
    · exact h
    · obtain ⟨h1, h2⟩ := h.2 tx (List.getElem?_mem htx)
      simp only []
      cases a
      · exact inv_update_transaction_status (inv_note h)
      · have hb : 0 ≤ (if 0 < tx.amount_usd ∨ 0 < tx.amount_cup
            then cup_to_usd cfg.rate cfg.bonusCup else 0) := by
          split
          · exact cup_to_usd_nonneg hc.1 hc.2.1
          · exact le_refl 0
        exact inv_update_transaction_status
          (inv_note (inv_update_nonneg h h1 h2 hb))

theorem inv_handle_withdraw_details {s : State} {uid : Nat} {text : String}
    {m : Nat} (h : Inv s) : Inv (handle_withdraw_details s uid text m) := by
  obtain ⟨hU, hC, hB⟩ := get_user_balOk h uid
  simp only [handle_withdraw_details]
  split
  · exact h
  · split
    · exact inv_get_user h uid
    · apply inv_create_transaction _ hU (le_refl 0)
      apply inv_update_user_balance (inv_get_user h uid) <;> rw [get_user_idem_fst]
      · linarith
      · linarith
      · linarith

theorem inv_handle_withdraw_review {cfg : Config} {s : State} {caller : Nat}
    {a : Bool} {tx_id : Nat} (h : Inv s) :
    Inv (handle_withdraw_review cfg s caller a tx_id) := by
  simp only [handle_withdraw_review]
  split
  · exact h
  · rcases htx : get_transaction s tx_id with _ | tx
    · exact h
    · obtain ⟨h1, h2⟩ := h.2 tx (List.getElem?_mem htx)
      simp only []
      cases a
      · exact inv_update_transaction_status
          (inv_note (inv_update_nonneg h h1 (le_refl 0) (le_refl 0)))
      · exact inv_update_transaction_status (inv_note h)

theorem inv_handle_transfer_amount {s : State} {uid target : Nat}
    {text : String} (h : Inv s) : Inv (handle_transfer_amount s uid target text) := by
  obtain ⟨hU, hC, hB⟩ := get_user_balOk h uid
  simp only [handle_transfer_amount]
  rcases hf : pyFloat (replaceCommaDot (trimChars text.data)) with _ | amount
  · exact h
  · simp only []
    split
    · exact h
    · rename_i hpos
      split
      · exact inv_get_user h uid
      · rename_i hfunds
        push_neg at hpos hfunds
        apply inv_create_transaction _ (by linarith) (le_refl 0)
        apply inv_update_nonneg _ (by linarith) (le_refl 0) (le_refl 0)
        apply inv_update_user_balance (inv_get_user h uid) <;> rw [get_user_idem_fst]
        · linarith
        · linarith
        · linarith

theorem inv_transferOp {s : State} {uid : Nat} {t a : String} (h : Inv s) :
    Inv (transferOp s uid t a) := by
  rw [transferOp]
  rcases handle_transfer_target uid t with _ | target
  · exact h
  · exact inv_handle_transfer_amount h

theorem step_inv {cfg : Config} {s : State} {op : Op}
    (hc : CfgOk cfg) (ho : OpOk op) (h : Inv s) : Inv (step cfg s op) := by
  cases op with
  | bet uid raw bt lot => exact inv_handle_bet hc h
  | depositPhoto uid caption m => exact inv_handle_deposit_photo h ho
  | depositReview caller a t => exact inv_handle_deposit_review hc h
  | withdrawDetails uid text m => exact inv_handle_withdraw_details h
  | withdrawReview caller a t => exact inv_handle_withdraw_review h
  | transfer uid t a => exact inv_transferOp h

theorem runOps_inv {cfg : Config} (hc : CfgOk cfg) :
    ∀ (ops : List Op) (s : State), Inv s → (∀ op ∈ ops, OpOk op) →
      Inv (runOps cfg s ops) := by
  intro ops
  induction ops with
  | nil => intro s h _; exact h
  | cons op ops ih =>
    intro s h ho
    rw [runOps]
    exact ih (step cfg s op) (step_inv hc (ho op (by simp)) h)
      (fun o hmem => ho o (by simp [hmem]))

theorem inv_init : Inv initState := by
  constructor
  · intro uid u h
    simp [initState] at h
  · intro t ht
    simp [initState] at ht

theorem parse_amount_10usd : parse_amount "10 usd" = (10, 0) := by
  have hs : hasSub (trimChars (replaceCommaDot (pyLower "10 usd".data)))
      ['u', 's', 'd'] = true := by decide
  have h : pyFloatParts (trimChars (takeBefore
      (trimChars (replaceCommaDot (pyLower "10 usd".data))) ['u', 's', 'd']))
      = some ⟨false, ['1', '0'], []⟩ := by decide
  simp [parse_amount, pyFloat, hs, h, partsToRat, digitsToNat]

theorem parse_amount_5usd : parse_amount "5 usd" = (5, 0) := by
  have hs : hasSub (trimChars (replaceCommaDot (pyLower "5 usd".data)))
      ['u', 's', 'd'] = true := by decide
  have h : pyFloatParts (trimChars (takeBefore
      (trimChars (replaceCommaDot (pyLower "5 usd".data))) ['u', 's', 'd']))
      = some ⟨false, ['5'], []⟩ := by decide
  simp [parse_amount, pyFloat, hs, h, partsToRat, digitsToNat]

theorem parse_amount_neg5usd : parse_amount "-5 usd" = (-5, 0) := by
  have hs : hasSub (trimChars (replaceCommaDot (pyLower "-5 usd".data)))
      ['u', 's', 'd'] = true := by decide
  have h : pyFloatParts (trimChars (takeBefore
      (trimChars (replaceCommaDot (pyLower "-5 usd".data))) ['u', 's', 'd']))
      = some ⟨true, ['5'], []⟩ := by decide
  simp [parse_amount, pyFloat, hs, h, partsToRat, digitsToNat]

theorem C1_counterexample :
    ((runOps cfgW initState
        [Op.depositPhoto 1 "-5 usd" 0, Op.depositReview 9 true 0]).users 1).map User.usd
      = some (-5) ∧ ¬ (0 : ℚ) ≤ -5 := by
  constructor
  · norm_num [runOps, step, handle_deposit_photo, handle_deposit_review,
      parse_amount_neg5usd, create_transaction, get_transaction,
      update_user_balance, get_user, setUserBalances, note,
      update_transaction_status, cup_to_usd, cfgW, initState, round2, round_eq,
      defaultUser, applyDeltas]
  · norm_num

theorem C1_amended (cfg : Config) (ops : List Op) (hc : CfgOk cfg)
    (hops : ∀ op ∈ ops, OpOk op) :
    ∀ uid u, (runOps cfg initState ops).users uid = some u →
      0 ≤ u.usd ∧ 0 ≤ u.cup ∧ 0 ≤ u.bonus_usd :=
  fun uid u hu => (runOps_inv hc ops initState inv_init hops).1 uid u hu

theorem C1_amended_witness :
    (runOps cfgW initState opsW).users 1 = some userW ∧
      (0 ≤ userW.usd ∧ 0 ≤ userW.cup ∧ 0 ≤ userW.bonus_usd) := by
  have h1 : (runOps cfgW initState opsW).users 1 = some userW := by
    norm_num [runOps, step, opsW, handle_deposit_photo, handle_deposit_review,
      parse_amount_10usd, create_transaction, get_transaction,
      update_user_balance, get_user, setUserBalances, note,
      update_transaction_status, cup_to_usd, cfgW, initState, round2, round_eq,
      defaultUser, applyDeltas, userW]
  refine ⟨h1, C1_amended cfgW opsW ?_ ?_ 1 userW h1⟩
  · refine ⟨by norm_num [cfgW], by norm_num [cfgW], fun bt => ⟨?_, ?_⟩⟩ <;>
      norm_num [cfgW]
  · intro op hop
    simp only [opsW, List.mem_cons, List.not_mem_nil, or_false] at hop
    rcases hop with rfl | rfl
    · simp only [OpOk]
      rw [parse_amount_10usd]
      norm_num
    · trivial

theorem parse_12con1usd (bt : String) (P : String → ℚ × ℚ) :
    parse_bet_and_cost "12 con 1 usd" bt P = (true, 1, 0) := by
  have h : lastMatch "12 con 1 usd" = some (['1'], Cur.usd) := by decide
  simp [parse_bet_and_cost, selectedCost, h, groupVal, pyFloat, pyFloatParts,
    partsToRat, digitsToNat]

theorem parse_1_234usd (bt : String) (P : String → ℚ × ℚ) :
    parse_bet_and_cost "1.234 usd" bt P = (true, 1234 / 1000, 0) := by
  have h : lastMatch "1.234 usd" = some (['1', '.', '2', '3', '4'], Cur.usd) := by decide
  simp [parse_bet_and_cost, selectedCost, h, groupVal, pyFloat, pyFloatParts,
    partsToRat, digitsToNat]
  norm_num

theorem handle_bet_after_users_self {s : State} {uid : Nat} {user : User}
    {raw bt lot : String} {cu cc : ℚ} (hr : user.ref ≠ some uid) :
    (handle_bet_after s uid user raw bt lot cu cc).users uid = s.users uid := by
  simp only [handle_bet_after]
  cases hru : user.ref with
  | none => rw [add_bet_users]
  | some rr =>
    have hne : uid ≠ rr := by
      intro he
      rw [he] at hr
      exact hr hru
    simp only []
    split <;> split
    all_goals
      first
      | rw [update_user_balance_users, if_neg hne, add_bet_users]
      | rw [add_bet_users]

theorem C2_counterexample :
    ((handle_bet cfgW s2cex 1 "1.234 usd" "fijo" "Florida").users 1).map User.usd
      = some (77 / 100) ∧ (77 / 100 : ℚ) ≠ 2 - 1234 / 1000 := by
  constructor
  · norm_num [handle_bet, handle_bet_after, parse_1_234usd, update_user_balance,
      get_user, setUserBalances, add_bet, s2cex, cfgW, round2, round_eq,
      applyDeltas, min_def]
  · norm_num

theorem C2_amended (cfg : Config) (s : State) (uid : Nat)
    (raw bt lot : String) (U C B c cc : ℚ) (r : Option Nat)
    (hu : s.users uid = some ⟨U, C, B, r⟩)
    (hp : parse_bet_and_cost raw bt cfg.prices = (true, c, cc))
    (hc : 0 < c) (hU : Dec2 U) (hB : Dec2 B) (hcd : Dec2 c)
    (hr : r ≠ some uid) :
    (c ≤ B + U →
      (handle_bet cfg s uid raw bt lot).users uid
        = some ⟨U - max 0 (c - B), round2 C, max 0 (B - c), r⟩ ∧
      (U - max 0 (c - B)) + max 0 (B - c) = (U + B) - c)
    ∧ (B + U < c → handle_bet cfg s uid raw bt lot = s) := by
  simp only [handle_bet, hp, get_user_of_some hu]
  rw [if_neg (show ¬ (true = false) by decide), if_pos hc]
  constructor
  · intro hfunds
    rw [if_neg (show ¬ (U + B < c) by linarith)]
    constructor
    · rw [handle_bet_after_users_self (by simpa using hr)]
      rw [update_user_balance_of_some hu, if_pos rfl]
      simp only [applyDeltas, Option.some.injEq, User.mk.injEq]
      refine ⟨?_, by rw [add_zero], ?_, trivial⟩
      · have he : U + -(c - min B c) = U - max 0 (c - B) := by
          rcases le_total B c with h | h
          · rw [min_eq_left h, max_eq_right (by linarith : (0 : ℚ) ≤ c - B)]
            ring
          · rw [min_eq_right h, max_eq_left (by linarith : c - B ≤ (0 : ℚ))]
            ring
        rw [he]
        exact round2_eq_self (hU.sub (Dec2.max Dec2.zero (hcd.sub hB)))
      · have he : B + -(min B c) = max 0 (B - c) := by
          rcases le_total B c with h | h
          · rw [min_eq_left h, max_eq_left (by linarith : B - c ≤ (0 : ℚ))]
            ring
          · rw [min_eq_right h, max_eq_right (by linarith : (0 : ℚ) ≤ B - c)]
            ring
        rw [he]
        exact round2_eq_self (Dec2.max Dec2.zero (hB.sub hcd))
    · rcases le_total B c with h | h
      · rw [max_eq_right (by linarith : (0 : ℚ) ≤ c - B),
          max_eq_left (by linarith : B - c ≤ (0 : ℚ))]
        ring
      · rw [max_eq_left (by linarith : c - B ≤ (0 : ℚ)),
          max_eq_right (by linarith : (0 : ℚ) ≤ B - c)]
        ring
  · intro hlt
    rw [if_pos (show U + B < c by linarith)]

theorem C2_amended_witness :
    (handle_bet cfgW s2wit 7 "12 con 1 usd" "fijo" "Florida").users 7
      = some ⟨3 - max 0 (1 - 1 / 2), round2 0, max 0 ((1 : ℚ) / 2 - 1), none⟩ ∧
    (3 - max 0 ((1 : ℚ) - 1 / 2)) + max 0 ((1 : ℚ) / 2 - 1) = (3 + 1 / 2) - 1 :=
  (C2_amended cfgW s2wit 7 "12 con 1 usd" "fijo" "Florida" 3 0 (1 / 2) 1 0 none
      (by norm_num [s2wit]) (parse_12con1usd _ _) (by norm_num) ⟨300, by norm_num⟩
      ⟨50, by norm_num⟩ ⟨100, by norm_num⟩ (by simp)).1 (by norm_num)

theorem withdraw_details_eq {s : State} {uid m : Nat} {text : String}
    {U C B : ℚ} {r : Option Nat}
    (hu : s.users uid = some ⟨U, C, B, r⟩) (h1 : 1 ≤ U)
    (hbar : hasSub (trimChars text.data) ['|'] = true) :
    handle_withdraw_details s uid text m
      = (create_transaction (update_user_balance s uid (-U) 0 0)
          uid TxType.withdraw U 0 (some m) none).2 := by
  simp only [handle_withdraw_details, hbar, get_user_of_some hu]
  rw [if_neg (by decide : ¬ (true = false)),
    if_neg (show ¬ (U < 1) by linarith)]

theorem withdraw_details_users_self {s : State} {uid : Nat} (m : Nat) {text : String}
    {U C B : ℚ} {r : Option Nat}
    (hu : s.users uid = some ⟨U, C, B, r⟩) (h1 : 1 ≤ U)
    (hbar : hasSub (trimChars text.data) ['|'] = true) :
    (handle_withdraw_details s uid text m).users uid
      = some ⟨0, round2 C, round2 B, r⟩ := by
  rw [withdraw_details_eq hu h1 hbar, create_transaction_users,
    update_user_balance_of_some hu, if_pos rfl]
  simp only [applyDeltas, add_neg_cancel, round2_zero, add_zero]

theorem withdraw_details_tx {s : State} {uid : Nat} (m : Nat) {text : String}
    {U C B : ℚ} {r : Option Nat}
    (hu : s.users uid = some ⟨U, C, B, r⟩) (hU : Dec2 U) (h1 : 1 ≤ U)
    (hbar : hasSub (trimChars text.data) ['|'] = true) :
    (handle_withdraw_details s uid text m).txs[s.txs.length]?
      = some ⟨uid, TxType.withdraw, U, 0, some m, none, TxStatus.pending⟩ := by
  rw [withdraw_details_eq hu h1 hbar, create_transaction_txs,
    update_user_balance_txs, round2_eq_self hU, round2_zero]
  exact List.getElem?_concat_length _ _

theorem C3_withdraw_escrow (cfg : Config) (s : State) (uid m : Nat)
    (text : String) (U C B : ℚ) (r : Option Nat)
    (hu : s.users uid = some ⟨U, C, B, r⟩)
    (hU : Dec2 U) (h1 : 1 ≤ U)
    (hbar : hasSub (trimChars text.data) ['|'] = true) :
    ((handle_withdraw_details s uid text m).users uid).map User.usd
      = some (U - U) ∧
    (handle_withdraw_details s uid text m).txs[s.txs.length]?
      = some ⟨uid, TxType.withdraw, U, 0, some m, none, TxStatus.pending⟩ ∧
    ((handle_withdraw_review cfg (handle_withdraw_details s uid text m)
        cfg.adminId false s.txs.length).users uid).map User.usd = some U ∧
    ((handle_withdraw_review cfg (handle_withdraw_details s uid text m)
        cfg.adminId true s.txs.length).users uid).map User.usd = some (U - U) := by
  have hs1u := withdraw_details_users_self m hu h1 hbar
  have htx := withdraw_details_tx m hu hU h1 hbar
  have hadm : ¬ (cfg.adminId ≠ cfg.adminId) := fun hne => hne rfl
  refine ⟨?_, htx, ?_, ?_⟩
  · rw [hs1u, show U - U = 0 by ring]
    rfl
  · simp only [handle_withdraw_review, if_neg hadm, get_transaction, htx]
    rw [if_neg (by decide : ¬ (false = true))]
    rw [update_transaction_status_users, note_users,
      update_user_balance_of_some hs1u, if_pos rfl]
    simp only [applyDeltas]
    rw [show (0 : ℚ) + U = U by ring, round2_eq_self hU]
    rfl
  · simp only [handle_withdraw_review, if_neg hadm, get_transaction, htx]
    rw [if_pos trivial]
    rw [update_transaction_status_users, note_users, hs1u,
      show U - U = 0 by ring]
    rfl

theorem C3_withdraw_escrow_witness :
    ((handle_withdraw_details s3wit 4 "123 | 9" 0).users 4).map User.usd
      = some (5 - 5) ∧
    (handle_withdraw_details s3wit 4 "123 | 9" 0).txs[s3wit.txs.length]?
      = some ⟨4, TxType.withdraw, 5, 0, some 0, none, TxStatus.pending⟩ ∧
    ((handle_withdraw_review cfgW (handle_withdraw_details s3wit 4 "123 | 9" 0)
        cfgW.adminId false s3wit.txs.length).users 4).map User.usd = some 5 ∧
    ((handle_withdraw_review cfgW (handle_withdraw_details s3wit 4 "123 | 9" 0)
        cfgW.adminId true s3wit.txs.length).users 4).map User.usd = some (5 - 5) :=
  C3_withdraw_escrow cfgW s3wit 4 0 "123 | 9" 5 2 3 none
    (by norm_num [s3wit]) ⟨500, by norm_num⟩ (by norm_num) (by decide)

theorem C10_full_balance_withdraw (s : State) (uid m : Nat) (text : String)
    (U C B : ℚ) (r : Option Nat)
    (hu : s.users uid = some ⟨U, C, B, r⟩)
    (hU : Dec2 U) (h1 : 1 ≤ U)
    (hbar : hasSub (trimChars text.data) ['|'] = true) :
    ((handle_withdraw_details s uid text m).users uid).map User.usd = some 0 ∧
    ((handle_withdraw_details s uid text m).txs[s.txs.length]?).map Tx.amount_usd
      = some U := by
  refine ⟨?_, ?_⟩
  · rw [withdraw_details_users_self m hu h1 hbar]
    rfl
  · rw [withdraw_details_tx m hu hU h1 hbar]
    rfl

theorem C10_full_balance_withdraw_witness :
    ((handle_withdraw_details s3wit 4 "77 | 8" 1).users 4).map User.usd = some 0 ∧
    ((handle_withdraw_details s3wit 4 "77 | 8" 1).txs[s3wit.txs.length]?).map Tx.amount_usd
      = some 5 :=
  C10_full_balance_withdraw s3wit 4 1 "77 | 8" 5 2 3 none
    (by norm_num [s3wit]) ⟨500, by norm_num⟩ (by norm_num) (by decide)

theorem C4_code_bug :
    (((handle_deposit_review cfgW
          (handle_deposit_review cfgW (handle_deposit_photo initState 1 "5 usd" 0)
            9 true 0)
          9 true 0).users 1).map User.usd = some 10) ∧
    (handle_deposit_review cfgW
        (handle_deposit_review cfgW (handle_deposit_photo initState 1 "5 usd" 0)
          9 true 0)
        9 true 0).notes = [1, 1] ∧
    (((handle_deposit_review cfgW (handle_deposit_photo initState 1 "5 usd" 0)
          9 true 0).users 1).map User.usd = some 5) ∧
    (handle_deposit_review cfgW (handle_deposit_photo initState 1 "5 usd" 0)
        9 true 0).notes = [1] ∧
    (((handle_deposit_review cfgW (handle_deposit_photo initState 1 "5 usd" 0)
          9 true 0).txs[0]?).map Tx.status = some TxStatus.approved) := by
  refine ⟨?_, ?_, ?_, ?_, ?_⟩ <;>
    norm_num [handle_deposit_photo, handle_deposit_review, parse_amount_5usd,
      create_transaction, get_transaction, update_user_balance, get_user,
      setUserBalances, note, update_transaction_status, cup_to_usd, cfgW,
      initState, round2, round_eq, defaultUser, applyDeltas]

theorem C5_code_bug :
    (∀ (s : State) (uid : Nat) (du dc db : ℚ),
      update_user_balance s uid du dc db
        = balance_write (balance_read s uid).2 uid (balance_read s uid).1 du dc db) ∧
    ((((balance_write
          (balance_write (balance_read (balance_read s5dat 1).2 1).2 1
            (balance_read s5dat 1).1 5 0 0)
          1 (balance_read (balance_read s5dat 1).2 1).1 3 0 0).users 1).map User.usd
        = some 13) ∧
      ¬ (((balance_write
          (balance_write (balance_read (balance_read s5dat 1).2 1).2 1
            (balance_read s5dat 1).1 5 0 0)
          1 (balance_read (balance_read s5dat 1).2 1).1 3 0 0).users 1).map User.usd
        = some (10 + 5 + 3))) := by
  refine ⟨fun s uid du dc db => rfl, ?_, ?_⟩ <;>
    norm_num [balance_read, balance_write, get_user, setUserBalances, s5dat,
      round2, round_eq]

theorem C9_counterexample :
    (((runOps cfgW initState
        [Op.depositPhoto 1 "-5 usd" 0, Op.depositReview 9 true 0]).users 1).map
          User.bonus_usd = some 0) ∧
    (0 : ℚ) ≠ round2 (70 / 110) := by
  constructor
  · norm_num [runOps, step, handle_deposit_photo, handle_deposit_review,
      parse_amount_neg5usd, create_transaction, get_transaction,
      update_user_balance, get_user, setUserBalances, note,
      update_transaction_status, cup_to_usd, cfgW, initState, round2, round_eq,
      defaultUser, applyDeltas]
  · norm_num [round2, round_eq]

theorem C9_amended (cfg : Config) (s : State) (tx_id : Nat) (tx : Tx) (u : User)
    (htx : get_transaction s tx_id = some tx)
    (hu : s.users tx.user_id = some u)
    (hpos : 0 < tx.amount_usd ∨ 0 < tx.amount_cup)
    (hrate : cfg.rate ≠ 0)
    (hU : Dec2 u.usd) (hC : Dec2 u.cup) (hB : Dec2 u.bonus_usd)
    (hAU : Dec2 tx.amount_usd) (hAC : Dec2 tx.amount_cup) :
    (handle_deposit_review cfg s cfg.adminId true tx_id).users tx.user_id
      = some ⟨u.usd + tx.amount_usd, u.cup + tx.amount_cup,
          u.bonus_usd + round2 (cfg.bonusCup / cfg.rate), u.ref⟩ := by
  have hadm : ¬ (cfg.adminId ≠ cfg.adminId) := fun hne => hne rfl
  simp only [handle_deposit_review, if_neg hadm, htx]
  rw [if_pos trivial, if_pos hpos, cup_to_usd, if_neg hrate]
  rw [update_transaction_status_users, note_users,
    update_user_balance_of_some hu, if_pos rfl]
  simp only [applyDeltas, Option.some.injEq, User.mk.injEq]
  refine ⟨round2_eq_self (hU.add hAU), round2_eq_self (hC.add hAC),
    round2_eq_self (hB.add (Dec2.round2 _)), trivial⟩

theorem C9_amended_witness :
    (handle_deposit_review cfgW s9wit cfgW.adminId true 0).users 1
      = some ⟨2 + 5, 3 + 0, 1 / 2 + round2 (70 / 110), none⟩ :=
  C9_amended cfgW s9wit 0 tx9 ⟨2, 3, 1 / 2, none⟩ rfl rfl
    (Or.inl (by norm_num [tx9])) (by norm_num [cfgW]) ⟨200, by norm_num⟩
    ⟨300, by norm_num⟩ ⟨50, by norm_num⟩ ⟨500, by norm_num [tx9]⟩
    ⟨0, by norm_num [tx9]⟩

theorem get_user_of_none {s : State} {uid : Nat} (h : s.users uid = none) :
    (get_user s uid).1 = defaultUser := by
  simp [get_user, h]

theorem handle_transfer_target_ne {uid target : Nat} {t : String}
    (h : handle_transfer_target uid t = some target) : target ≠ uid := by
  simp only [handle_transfer_target] at h
  split at h
  · simp at h
  · split at h
    · simp at h
    · rename_i hne
      rw [Option.some.injEq] at h
      rw [← h]
      exact hne

theorem pyFloat_5 : pyFloat (replaceCommaDot (trimChars ['5'])) = some 5 := by
  have hp : pyFloatParts (replaceCommaDot (trimChars ['5']))
      = some ⟨false, ['5'], []⟩ := by decide
  have hv : digitsToNat ['5'] = 5 := by decide
  have hv0 : digitsToNat [] = 0 := by decide
  rw [pyFloat, hp]
  norm_num [partsToRat, hv, hv0]

theorem C6_counterexample :
    s6dat.users 999 = none ∧
    ((transferOp s6dat 1 "999" "5").users 999).map User.usd = some 5 ∧
    ((transferOp s6dat 1 "999" "5").users 1).map User.usd = some 5 := by
  have ht : handle_transfer_target 1 "999" = some 999 := by decide
  refine ⟨by norm_num [s6dat], ?_, ?_⟩ <;>
    simp only [transferOp, ht, handle_transfer_amount, pyFloat_5] <;>
    norm_num [create_transaction, update_user_balance, get_user,
      setUserBalances, s6dat, round2, round_eq, defaultUser, applyDeltas]

theorem C6_amended :
    (∀ (s : State) (uid : Nat) (t a : String),
      pyIsDigit (trimChars t.data) = true →
      digitsToNat (trimChars t.data) = uid →
      transferOp s uid t a = s) ∧
    (∀ (s : State) (uid target : Nat) (t a : String) (u : User) (amt : ℚ),
      handle_transfer_target uid t = some target →
      s.users target = none →
      s.users uid = some u →
      pyFloat (replaceCommaDot (trimChars a.data)) = some amt →
      0 < amt → amt ≤ u.usd →
      (transferOp s uid t a).users target = some ⟨round2 amt, 0, 0, none⟩) := by
  constructor
  · intro s uid t a hd he
    simp only [transferOp, handle_transfer_target, hd, he]
    rw [if_pos trivial, if_neg (by decide : ¬ (true = false))]
  · intro s uid target t a u amt htgt hmiss hu hamt hpos hle
    have hne : target ≠ uid := handle_transfer_target_ne htgt
    simp only [transferOp, htgt, handle_transfer_amount, hamt]
    rw [if_neg (not_le.mpr hpos), get_user_of_some hu,
      if_neg (not_lt.mpr hle)]
    rw [create_transaction_users, update_user_balance_users, if_pos rfl]
    have hmid : (update_user_balance s uid (-amt) 0 0).users target = none := by
      rw [update_user_balance_of_some hu, if_neg hne]
      exact hmiss
    rw [get_user_of_none hmid]
    simp only [applyDeltas, defaultUser, zero_add, round2_zero]

theorem C6_amended_witness :
    transferOp s6dat 1 "1" "5" = s6dat ∧
    (transferOp s6dat 1 "999" "5").users 999 = some ⟨round2 5, 0, 0, none⟩ :=
  ⟨C6_amended.1 s6dat 1 "1" "5" (by decide) (by decide),
   C6_amended.2 s6dat 1 999 "999" "5" ⟨10, 0, 0, none⟩ 5 (by decide)
     (by norm_num [s6dat]) (by norm_num [s6dat]) pyFloat_5 (by norm_num)
     (by norm_num)⟩

theorem parse_12con005usd (bt : String) (P : String → ℚ × ℚ) :
    parse_bet_and_cost "12 con 0.05 usd" bt P = (true, 1 / 20, 0) := by
  have h : lastMatch "12 con 0.05 usd" = some (['0', '.', '0', '5'], Cur.usd) := by
    decide
  simp [parse_bet_and_cost, selectedCost, h, groupVal, pyFloat, pyFloatParts,
    partsToRat, digitsToNat]
  norm_num

theorem parse_12con2usd (bt : String) (P : String → ℚ × ℚ) :
    parse_bet_and_cost "12 con 2 usd" bt P = (true, 2, 0) := by
  have h : lastMatch "12 con 2 usd" = some (['2'], Cur.usd) := by decide
  simp [parse_bet_and_cost, selectedCost, h, groupVal, pyFloat, pyFloatParts,
    partsToRat, digitsToNat]

theorem parse_12con100cup (bt : String) (P : String → ℚ × ℚ) :
    parse_bet_and_cost "12 con 100 cup" bt P = (true, 0, 100) := by
  have h : lastMatch "12 con 100 cup" = some (['1', '0', '0'], Cur.cup) := by decide
  simp [parse_bet_and_cost, selectedCost, h, groupVal, pyFloat, pyFloatParts,
    partsToRat, digitsToNat]

theorem C7_counterexample :
    (((handle_bet cfgW s7dat 1 "12 con 0.05 usd" "fijo" "Florida").users 2).map
        User.usd = some 0) ∧
    (handle_bet cfgW s7dat 1 "12 con 0.05 usd" "fijo" "Florida").bets.length = 1 ∧
    (0 : ℚ) ≠ 5 / 100 * (1 / 20) := by
  refine ⟨?_, ?_, by norm_num⟩ <;>
    simp only [handle_bet, handle_bet_after, parse_12con005usd] <;>
    norm_num [update_user_balance, get_user, setUserBalances, add_bet, s7dat,
      round2, round_eq, applyDeltas, min_def]

theorem C7_amended (cfg : Config) (s : State) (uid r : Nat)
    (raw bt lot : String) (u ru : User) (c cc : ℚ)
    (hu : s.users uid = some u) (href : u.ref = some r) (hne : r ≠ uid)
    (hru : s.users r = some ru) (hD : Dec2 ru.usd)
    (hp : parse_bet_and_cost raw bt cfg.prices = (true, c, cc)) :
    (0 < c → c ≤ u.usd + u.bonus_usd →
      ((handle_bet cfg s uid raw bt lot).users r).map User.usd
        = some (if 0 < round2 (c * (5 / 100))
            then ru.usd + round2 (c * (5 / 100)) else ru.usd)) ∧
    (c = 0 → cc ≤ u.cup →
      ((handle_bet cfg s uid raw bt lot).users r).map User.usd
        = some ru.usd) := by
  have husers2 : ∀ du dc db,
      (add_bet (update_user_balance s uid du dc db) uid lot bt raw c cc).users r
        = some ru := by
    intro du dc db
    rw [add_bet_users, update_user_balance_of_some hu, if_neg hne]
    exact hru
  constructor
  · intro hc hfunds
    simp only [handle_bet, hp, get_user_of_some hu]
    rw [if_neg (by decide : ¬ (true = false)), if_pos hc,
      if_neg (show ¬ (u.usd + u.bonus_usd < c) by linarith)]
    simp only [handle_bet_after, href]
    rw [if_pos hc]
    by_cases hcom : 0 < round2 (c * (5 / 100))
    · rw [if_pos hcom, if_pos hcom]
      rw [update_user_balance_of_some (husers2 _ _ _), if_pos rfl]
      simp only [applyDeltas]
      rw [round2_eq_self (hD.add (Dec2.round2 _))]
      rfl
    · rw [if_neg hcom, if_neg hcom, husers2]
      rfl
  · intro hc hcup
    subst hc
    simp only [handle_bet, hp, get_user_of_some hu]
    rw [if_neg (by decide : ¬ (true = false)), if_neg (lt_irrefl 0),
      if_neg (show ¬ (u.cup < cc) by linarith)]
    simp only [handle_bet_after, href]
    rw [if_neg (lt_irrefl 0), if_neg (lt_irrefl 0), husers2]
    rfl

theorem C7_amended_witness :
    (((handle_bet cfgW s7wit 1 "12 con 2 usd" "fijo" "Florida").users 2).map
        User.usd
      = some (if 0 < round2 (2 * (5 / 100))
          then 1 + round2 (2 * (5 / 100)) else 1)) ∧
    (((handle_bet cfgW s7wit 1 "12 con 100 cup" "fijo" "Florida").users 2).map
        User.usd = some 1) :=
  ⟨(C7_amended cfgW s7wit 1 2 "12 con 2 usd" "fijo" "Florida"
      ⟨5, 200, 0, some 2⟩ ⟨1, 0, 0, none⟩ 2 0 (by norm_num [s7wit]) rfl
      (by norm_num) (by norm_num [s7wit]) ⟨100, by norm_num⟩
      (parse_12con2usd _ _)).1 (by norm_num) (by norm_num),
   (C7_amended cfgW s7wit 1 2 "12 con 100 cup" "fijo" "Florida"
      ⟨5, 200, 0, some 2⟩ ⟨1, 0, 0, none⟩ 0 100 (by norm_num [s7wit]) rfl
      (by norm_num) (by norm_num [s7wit]) ⟨100, by norm_num⟩
      (parse_12con100cup _ _)).2 rfl (by norm_num)⟩

theorem C8_counterexample :
    parse_bet_and_cost "0 usd" "fijo" defaultPlayPrices = (false, 0, 0) ∧
    defaultPlayPrices "fijo" = (70, 1 / 5) ∧
    ¬ ((70 : ℚ) = 0 ∧ (1 / 5 : ℚ) = 0) := by
  refine ⟨?_, rfl, by norm_num⟩
  have h : lastMatch "0 usd" = some (['0'], Cur.usd) := by decide
  simp [parse_bet_and_cost, selectedCost, h, groupVal, pyFloat, pyFloatParts,
    partsToRat, digitsToNat]

theorem C8_amended :
    (∀ (raw bt : String) (P : String → ℚ × ℚ),
      (parse_bet_and_cost raw bt P
        = if (selectedCost raw bt P).1 = 0 ∧ (selectedCost raw bt P).2 = 0
            then (false, 0, 0)
            else (true, (selectedCost raw bt P).1, (selectedCost raw bt P).2)) ∧
      ((parse_bet_and_cost raw bt P).1 = false ↔ selectedCost raw bt P = (0, 0)) ∧
      (lastMatch raw = none → selectedCost raw bt P = ((P bt).2, (P bt).1)) ∧
      (∀ v, lastMatch raw = some (v, Cur.usd) →
        selectedCost raw bt P = (groupVal v, 0)) ∧
      (∀ v, lastMatch raw = some (v, Cur.cup) →
        selectedCost raw bt P = (0, groupVal v))) ∧
    parse_bet_and_cost "12 con 1 usd, 34 con 2 usd" "fijo" defaultPlayPrices
      = (true, 2, 0) := by
  constructor
  · intro raw bt P
    refine ⟨rfl, ?_, ?_, ?_, ?_⟩
    · rw [parse_bet_and_cost]
      split
      · rename_i hz
        simp only [true_iff]
        have hp : selectedCost raw bt P
            = ((selectedCost raw bt P).1, (selectedCost raw bt P).2) := rfl
        rw [hp, hz.1, hz.2]
      · rename_i hz
        constructor
        · intro hfalse
          exact Bool.noConfusion hfalse
        · intro hsel
          exact absurd ⟨by rw [hsel], by rw [hsel]⟩ hz
      
    · intro h
      rw [selectedCost, h]
    · intro v h
      rw [selectedCost, h]
    · intro v h
      rw [selectedCost, h]
  · have h : lastMatch "12 con 1 usd, 34 con 2 usd" = some (['2'], Cur.usd) := by
      decide
    simp [parse_bet_and_cost, selectedCost, h, groupVal, pyFloat, pyFloatParts,
      partsToRat, digitsToNat]

theorem C8_amended_witness :
    selectedCost "hola" "fijo" defaultPlayPrices
      = ((defaultPlayPrices "fijo").2, (defaultPlayPrices "fijo").1) ∧
    selectedCost "12 con 1 usd, 34 con 2 usd" "fijo" defaultPlayPrices
      = (groupVal ['2'], 0) :=
  ⟨(C8_amended.1 "hola" "fijo" defaultPlayPrices).2.2.1 (by decide),
   (C8_amended.1 "12 con 1 usd, 34 con 2 usd" "fijo" defaultPlayPrices).2.2.2.1
     ['2'] (by decide)⟩

end Rifas

